import Mathlib

/-!
Verification development for the contradiction-mining engine of the
slop-ai repository (source: src/lib/utils.js, conflict-detection module).

The JavaScript module is shallowly embedded below.  Conventions used
throughout:

* JS strings are Lean String values; JS number scores are Rat values
  (the module only adds, multiplies and compares small decimal constants,
  so rational arithmetic mirrors the ECMAScript doubles on every input
  appearing in this development).
* Timestamps are modelled as Option Int: the JS code parses createdAt
  with new Date(...).getTime(), which yields NaN for a garbled date.
  none plays the role of NaN; comparisons with none are false, matching
  NaN comparison semantics (see jsLe).
* JS Set objects over tokens are Finset String; token arrays keep their
  order as List String.
* The heuristic signal strings pushed by the source are modelled as a
  structured inductive type Signal together with a render function that
  rebuilds the exact template text of the source.
* Effectful boundaries (IndexedDB reads, chrome.storage, the AI router)
  are passed in explicitly: record/topic corpora as lists, the conflict
  ledger as a list threaded in and out, the judgment service as a
  function from a candidate to an optional parsed reply (none models a
  transport error or a JSON.parse failure, both of which the source
  catches and maps to null), and id/time generation as parameters.
-/

namespace ConflictEngine

/-- Comparison used by the source on parsed timestamps, with the same
semantics as a JS less-or-equal on possibly-NaN numbers: any comparison
involving NaN is false. -/
def jsLe : Option Int → Option Int → Bool
  | some a, some b => a ≤ b
  | _, _ => false

/-- Truthiness of an optional string field, as JS if-tests see it:
null/undefined and the empty string are falsy. -/
def truthyOpt : Option String → Bool
  | some s => s ≠ ""
  | none => false

/-- JS string-or-default idiom (value || fallback): a missing or empty
string falls back. -/
def jsOr (s : Option String) (d : String) : String :=
  match s with
  | some v => if v = "" then d else v
  | none => d

/-- ASCII lowercasing of a string, character by character — the effect
of JS toLowerCase on the ASCII corpora of this development. -/
def lowerStr (s : String) : String := String.mk (s.data.map Char.toLower)

/-- Negation / reversal phrases (NEGATION_WORDS in the source). -/
def NEGATION_WORDS : List String :=
  ["don\x27t", "avoid", "instead", "rather than", "not", "never", "stop",
   "switch from", "migrate from", "replace", "drop", "remove", "abandon",
   "actually", "changed", "reconsidered", "on second thought", "turns out",
   "better alternative", "worse than expected", "doesn\x27t work", "failed"]

/-- Contradictory adjective pairs (CONTRADICTORY_ADJECTIVE_PAIRS). -/
def CONTRADICTORY_ADJECTIVE_PAIRS : List (String × String) :=
  [("fast", "slow"), ("simple", "complex"), ("easy", "difficult"),
   ("lightweight", "heavy"), ("lightweight", "bloated"), ("secure", "insecure"),
   ("scalable", "unscalable"), ("reliable", "unreliable"), ("stable", "unstable"),
   ("performant", "slow"), ("modern", "outdated"), ("recommended", "deprecated"),
   ("good", "bad"), ("best", "worst"), ("better", "worse"),
   ("efficient", "inefficient"), ("clean", "messy"),
   ("maintainable", "unmaintainable"), ("readable", "unreadable"),
   ("flexible", "rigid"), ("mature", "immature")]

/-- Temporal override phrases (TEMPORAL_OVERRIDE_PHRASES). -/
def TEMPORAL_OVERRIDE_PHRASES : List String :=
  ["actually", "changed my mind", "on second thought", "after testing",
   "after trying", "after further review", "after more research",
   "i was wrong", "turns out", "in hindsight", "reconsidered",
   "updated my thinking", "revised my approach", "new approach",
   "better approach", "going forward", "instead we should", "no longer",
   "decided against", "backed off from", "moved away from",
   "pivoted to", "pivoting to", "switching to"]

/-- Stopword set (STOPWORDS). -/
def STOPWORDS : List String :=
  ["a", "an", "the", "and", "or", "but", "in", "on", "at", "to", "for",
   "of", "with", "by", "from", "is", "it", "as", "be", "was", "were",
   "been", "are", "am", "do", "does", "did", "has", "had", "have", "will",
   "would", "could", "should", "may", "might", "can", "shall", "not", "no",
   "this", "that", "these", "those", "i", "you", "he", "she", "we", "they",
   "me", "him", "her", "us", "them", "my", "your", "his", "its", "our",
   "their", "what", "which", "who", "whom", "how", "when", "where", "why",
   "if", "then", "else", "so", "up", "out", "about", "into", "over",
   "after", "before", "between", "under", "again", "just", "also", "than",
   "very", "too", "some", "any", "all", "each", "every", "both", "few",
   "more", "most", "other", "such", "only", "same", "here", "there",
   "now", "then", "once", "still", "already", "much", "many", "well",
   "back", "even", "new", "way", "use", "like", "get", "make", "go",
   "know", "take", "see", "come", "think", "look", "want", "give", "need",
   "tell", "say", "try", "ask", "work", "seem", "feel", "let", "keep",
   "help", "show", "put", "set", "run", "move", "play", "turn", "being",
   "thing", "things", "really", "using", "used", "one", "two", "first",
   "last", "long", "great", "little", "own", "old", "right", "while",
   "able", "done", "going", "something", "anything", "everything", "nothing"]

/-- Heuristic score threshold (HEURISTIC_SCORE_THRESHOLD = 0.3). -/
def HEURISTIC_SCORE_THRESHOLD : ℚ := 3 / 10

/-- AI confidence threshold (AI_CONFIDENCE_THRESHOLD = 0.6). -/
def AI_CONFIDENCE_THRESHOLD : ℚ := 6 / 10

/-- Camel-case splitting pass of tokenize: the source applies the global
replacement of a lowercase letter immediately followed by an uppercase
letter with the same two letters separated by a space. -/
def splitCamel : List Char → List Char
  | a :: b :: rest =>
    if a.isLower ∧ b.isUpper then a :: ' ' :: splitCamel (b :: rest)
    else a :: splitCamel (b :: rest)
  | l => l

/-- Separator predicate after the punctuation-replacement pass: the
source splits on runs of whitespace and hyphens, and at that point every
whitespace character has already been replaced by a plain space. -/
def isSep (c : Char) : Bool := c = ' ' || c = '-'

/-- Splits a character list into the maximal separator-free chunks.
Empty chunks between adjacent separators never survive the length
filter of tokenize, so they are dropped here directly. -/
def chunksAux : List Char → List Char → List String
  | [], acc => if acc.isEmpty then [] else [String.mk acc.reverse]
  | c :: cs, acc =>
    if isSep c then
      (if acc.isEmpty then chunksAux cs [] else String.mk acc.reverse :: chunksAux cs [])
    else chunksAux cs (c :: acc)

/-- First-occurrence deduplication, the order that spreading a JS Set
built from an array produces. -/
def dedupFirst : List String → List String → List String
  | _, [] => []
  | seen, w :: ws =>
    if w ∈ seen then dedupFirst seen ws else w :: dedupFirst (w :: seen) ws

/-- tokenize(text): camel-case split, lowercase, replace every character
outside [a-z0-9-] with a space, split on whitespace/hyphen runs, drop
tokens shorter than two characters or in the stopword set, deduplicate
keeping first occurrences. -/
def tokenize (text : String) : List String :=
  if text = "" then []
  else
    let expanded := splitCamel text.data
    let lowered := expanded.map Char.toLower
    let replaced := lowered.map fun c =>
      if ('a' ≤ c ∧ c ≤ 'z') ∨ ('0' ≤ c ∧ c ≤ '9') ∨ c = '-' then c else ' '
    let words := (chunksAux replaced []).filter fun w =>
      2 ≤ w.length ∧ w ∉ STOPWORDS
    dedupFirst [] words

/-- jaccardSimilarity(setA, setB): zero when both sets are empty, else
intersection size over union size, where the source computes the union
size as sizeA + sizeB - intersection and guards a zero union. -/
def jaccardSimilarity (setA setB : Finset String) : ℚ :=
  if setA.card = 0 ∧ setB.card = 0 then 0
  else
    let inter := (setA ∩ setB).card
    let union := setA.card + setB.card - inter
    if union = 0 then 0 else (inter : ℚ) / (union : ℚ)

/-- tagOverlap(tagsA, tagsB): case-insensitive overlap coefficient,
zero when either list is empty. -/
def tagOverlap (tagsA tagsB : List String) : ℚ :=
  if tagsA.isEmpty ∨ tagsB.isEmpty then 0
  else
    let setA := (tagsA.map lowerStr).toFinset
    let setB := (tagsB.map lowerStr).toFinset
    let inter := (setA ∩ setB).card
    let minSize := min setA.card setB.card
    if minSize = 0 then 0 else (inter : ℚ) / (minSize : ℚ)

/-- Does the pattern occur at the head of the haystack (character-exact)? -/
def leadsWith : List Char → List Char → Bool
  | [], _ => true
  | _ :: _, [] => false
  | p :: ps, c :: cs => p == c && leadsWith ps cs

/-- Does the pattern occur anywhere in the haystack?  Mirrors JS
String.prototype.includes. -/
def occursIn (pat : List Char) : List Char → Bool
  | [] => pat.isEmpty
  | c :: cs => leadsWith pat (c :: cs) || occursIn pat cs

/-- JS includes on strings. -/
def strContains (hay pat : String) : Bool := occursIn pat.data hay.data

/-- findMatchingPhrases(text, phrases): the phrases of the list whose
lowercased form occurs in the lowercased text. -/
def findMatchingPhrases (text : String) (phrases : List String) : List String :=
  if text = "" then []
  else phrases.filter fun phrase => strContains (lowerStr text) (lowerStr phrase)

/-- A technology switch extracted by one of the TECH_SWITCH_PATTERNS:
the captured from-technology and to-technology (lowercased, as the
source lowercases the capture groups) and the whole matched text
(match[0], original case). -/
structure Switch where
  fromT : String
  toT : String
  pattern : String
deriving DecidableEq, Repr

/-- Word character of the JS regex class backslash-w: ASCII letters,
digits and underscore. -/
def isWordChar (c : Char) : Bool := c.isAlphanum || c = '_'

/-- Whitespace of the JS regex class backslash-s (ASCII part; the
corpus strings of this development contain no exotic whitespace). -/
def isSpaceChar (c : Char) : Bool :=
  c = ' ' || c = '\t' || c = '\n' || c = '\r' || c = '\x0b' || c = '\x0c'

/-- Consume a literal case-insensitively (the patterns carry the i
flag); the literal is given lowercase. -/
def litCI : List Char → List Char → Option (List Char)
  | [], cs => some cs
  | _ :: _, [] => none
  | l :: ls, c :: cs => if c.toLower = l then litCI ls cs else none

/-- Consume one-or-more whitespace characters, maximally.  In every
TECH_SWITCH_PATTERN the atom after a whitespace-plus cannot start with
whitespace, so maximal munch agrees with the backtracking JS engine. -/
def ws1 (cs : List Char) : Option (List Char) :=
  match cs with
  | c :: rest => if isSpaceChar c then some (rest.dropWhile isSpaceChar) else none
  | [] => none

/-- Consume one-or-more word characters, maximally, returning the
captured word.  In every TECH_SWITCH_PATTERN the atom after a capture
group is whitespace or the pattern end, so maximal munch agrees with
the backtracking JS engine. -/
def word1 (cs : List Char) : Option (List Char × List Char) :=
  match cs.span isWordChar with
  | (w, rest) => if w.isEmpty then none else some (w, rest)

/-- Tail shared by the switch and migrate patterns: a word, then
whitespace, the literal to, whitespace, and a second word.  Returns
both captures and the rest of the input. -/
def wordToWord (cs : List Char) : Option (List Char × List Char × List Char) := do
  let (w1, cs1) ← word1 cs
  let cs2 ← ws1 cs1
  let cs3 ← litCI "to".data cs2
  let cs4 ← ws1 cs3
  let (w2, cs5) ← word1 cs4
  return (w1, w2, cs5)

/-- Tail of the first two patterns including the optional from-group:
the from-branch is tried first and the engine falls back to the empty
branch when the whole remainder fails, as JS backtracking does. -/
def tailFromTo (cs : List Char) : Option (List Char × List Char × List Char) :=
  (do
    let cs1 ← litCI "from".data cs
    let cs2 ← ws1 cs1
    wordToWord cs2) <|>
  wordToWord cs

/-- Builds the Switch result of a successful match attempt that started
at start and left rest unconsumed: match[0] is the consumed prefix. -/
def mkSwitch (start : List Char) (w1 w2 rest : List Char) : Switch :=
  { fromT := lowerStr (String.mk w1)
    toT := lowerStr (String.mk w2)
    pattern := String.mk (start.take (start.length - rest.length)) }

/-- Match attempt at a fixed position for pattern 1:
switch(?:ed|ing)?\s+(?:from\s+)?(w+)\s+to\s+(w+), case-insensitive. -/
def matchP1At (cs : List Char) : Option Switch := do
  let cs1 ← litCI "switch".data cs
  let cont := fun cs2 => do
    let cs3 ← ws1 cs2
    tailFromTo cs3
  let (w1, w2, rest) ← ((litCI "ed".data cs1).bind cont) <|>
    ((litCI "ing".data cs1).bind cont) <|> cont cs1
  return mkSwitch cs w1 w2 rest

/-- Match attempt at a fixed position for pattern 2:
migrat(?:e|ed|ing)\s+(?:from\s+)?(w+)\s+to\s+(w+), case-insensitive. -/
def matchP2At (cs : List Char) : Option Switch := do
  let cs1 ← litCI "migrat".data cs
  let cont := fun cs2 => do
    let cs3 ← ws1 cs2
    tailFromTo cs3
  let (w1, w2, rest) ← ((litCI "e".data cs1).bind cont) <|>
    ((litCI "ed".data cs1).bind cont) <|> ((litCI "ing".data cs1).bind cont)
  return mkSwitch cs w1 w2 rest

/-- Tail of pattern 3: a word, whitespace, the literal with, whitespace
and a second word. -/
def wordWithWord (cs : List Char) : Option (List Char × List Char × List Char) := do
  let (w1, cs1) ← word1 cs
  let cs2 ← ws1 cs1
  let cs3 ← litCI "with".data cs2
  let cs4 ← ws1 cs3
  let (w2, cs5) ← word1 cs4
  return (w1, w2, cs5)

/-- Match attempt at a fixed position for pattern 3:
replac(?:e|ed|ing)\s+(w+)\s+with\s+(w+), case-insensitive. -/
def matchP3At (cs : List Char) : Option Switch := do
  let cs1 ← litCI "replac".data cs
  let cont := fun cs2 => do
    let cs3 ← ws1 cs2
    wordWithWord cs3
  let (w1, w2, rest) ← ((litCI "e".data cs1).bind cont) <|>
    ((litCI "ed".data cs1).bind cont) <|> ((litCI "ing".data cs1).bind cont)
  return mkSwitch cs w1 w2 rest

/-- Match attempt at a fixed position for pattern 4:
(w+)\s+(?:is|was)\s+better\s+than\s+(w+), case-insensitive. -/
def matchP4At (cs : List Char) : Option Switch := do
  let (w1, cs1) ← word1 cs
  let cs2 ← ws1 cs1
  let cont := fun cs3 => do
    let cs4 ← ws1 cs3
    let cs5 ← litCI "better".data cs4
    let cs6 ← ws1 cs5
    let cs7 ← litCI "than".data cs6
    let cs8 ← ws1 cs7
    let (w2, cs9) ← word1 cs8
    return (w2, cs9)
  let (w2, rest) ← ((litCI "is".data cs2).bind cont) <|>
    ((litCI "was".data cs2).bind cont)
  return mkSwitch cs w1 w2 rest

/-- Leftmost match: JS String.match without the g flag attempts the
pattern at each successive start position and returns the first
success. -/
def scanFirst (f : List Char → Option Switch) : List Char → Option Switch
  | [] => f []
  | c :: cs => f (c :: cs) <|> scanFirst f cs

/-- detectTechSwitches(text): for each of the four patterns, its first
match in the text, in pattern order. -/
def detectTechSwitches (text : String) : List Switch :=
  if text = "" then []
  else [matchP1At, matchP2At, matchP3At, matchP4At].filterMap
    fun m => scanFirst m text.data

/-- findContradictoryAdjectives(textA, textB): adjective pairs with one
side occurring (as a substring of the lowercased text, exactly as the
source checks) in the older text and the other in the newer text; the
reported adjA/adjB are recomputed by the source from containment of the
first adjective, which this mirrors verbatim. -/
def findContradictoryAdjectives (textA textB : String) : List (String × String) :=
  if textA = "" ∨ textB = "" then []
  else
    let lowerA := lowerStr textA
    let lowerB := lowerStr textB
    CONTRADICTORY_ADJECTIVE_PAIRS.filterMap fun p =>
      if (strContains lowerA p.1 ∧ strContains lowerB p.2) ∨
         (strContains lowerA p.2 ∧ strContains lowerB p.1) then
        some (if strContains lowerA p.1 then p.1 else p.2,
              if strContains lowerB p.1 then p.1 else p.2)
      else none

/-- A knowledge record (summary) as the engine reads it.  createdAt is
kept as the already-parsed timestamp (see jsLe for the NaN model). -/
structure Summary where
  id : String
  topicId : Option String
  title : String
  summary : String
  decisions : List String
  keyInsights : List String
  tags : List String
  createdAt : Option Int
deriving DecidableEq, Repr

/-- A topic, used only for its tags in the cross-topic gate. -/
structure Topic where
  id : String
  tags : List String
deriving DecidableEq, Repr

/-- extractKeywords(summary): the deduplicated tokens of title,
decisions, key insights and tags. -/
def extractKeywords (s : Summary) : Finset String :=
  ((([s.title] ++ s.decisions ++ s.keyInsights ++ s.tags).flatMap tokenize)).toFinset

/-- A heuristic signal.  The source pushes template strings into the
signals array; each constructor carries exactly the data interpolated
into the corresponding template, and Signal.render rebuilds the exact
text. -/
inductive Signal where
  | negation_pattern (phrases : List String) (shared : List String)
  | reverse_negation (phrases : List String) (shared : List String)
  | tech_switch (sw : Switch)
  | prior_switch (sw : Switch)
  | contradictory_adjective (adjA adjB : String)
  | temporal_override (phrases : List String) (shared : List String)
  | summary_level_tech_switch (sw : Switch)
  | summary_adjective_conflict (adjA adjB : String)
deriving DecidableEq, Repr

/-- The exact template text the source pushes for each signal. -/
def Signal.render : Signal → String
  | .negation_pattern phrases shared =>
    "negation_pattern: \"" ++ String.intercalate "\", \"" phrases ++
      "\" with shared keywords [" ++ String.intercalate ", " shared ++ "]"
  | .reverse_negation phrases shared =>
    "reverse_negation: older says \"" ++ String.intercalate "\", \"" phrases ++
      "\" with shared keywords [" ++ String.intercalate ", " shared ++ "]"
  | .tech_switch sw =>
    "tech_switch: \"" ++ sw.pattern ++ "\" (older mentions " ++ sw.fromT ++ ")"
  | .prior_switch sw =>
    "prior_switch: older had \"" ++ sw.pattern ++ "\""
  | .contradictory_adjective adjA adjB =>
    "contradictory_adjective: \"" ++ adjA ++ "\" vs \"" ++ adjB ++ "\""
  | .temporal_override phrases shared =>
    "temporal_override: \"" ++ String.intercalate "\", \"" phrases ++
      "\" with shared keywords [" ++ String.intercalate ", " shared ++ "]"
  | .summary_level_tech_switch sw =>
    "summary_level_tech_switch: \"" ++ sw.pattern ++
      "\" contradicts older knowledge about " ++ sw.fromT
  | .summary_adjective_conflict adjA adjB =>
    "summary_adjective_conflict: \"" ++ adjA ++ "\" vs \"" ++ adjB ++ "\""

/-- A candidate as produced by compareDecisions / compareSummaryLevel,
before record ids are attached. -/
structure RawCandidate where
  olderContent : String
  newerContent : String
  olderContentType : String
  newerContentType : String
  signals : List Signal
  score : ℚ
deriving DecidableEq, Repr

/-- Tokens of the older item that the newer item shares (the source
recomputes this list in steps 2, the reverse check and step 5; the
value is identical each time). -/
def sharedTokensOf (olderText newerText : String) : List String :=
  (tokenize olderText).filter fun t => t ∈ tokenize newerText

/-- Step 2 of compareDecisions: negation phrases in the newer item,
gated on a shared keyword; weight 0.25 + 0.05 per matched phrase. -/
def negationPart (olderText newerText : String) : List Signal × ℚ :=
  let negs := findMatchingPhrases newerText NEGATION_WORDS
  let shared := sharedTokensOf olderText newerText
  if 0 < negs.length ∧ 0 < shared.length then
    ([Signal.negation_pattern negs shared], 25 / 100 + (negs.length : ℚ) * (5 / 100))
  else ([], 0)

/-- Reverse negation check: negation phrases in the older item, same
shared-keyword gate; weight 0.15. -/
def reversePart (olderText newerText : String) : List Signal × ℚ :=
  let negs := findMatchingPhrases olderText NEGATION_WORDS
  let shared := sharedTokensOf olderText newerText
  if 0 < negs.length ∧ 0 < shared.length then
    ([Signal.reverse_negation negs shared], 15 / 100)
  else ([], 0)

/-- The tech switches detected in the newer item whose from-technology
is among the older item tokens — exactly the switches for which the
step-3 loop of the source pushes a signal and adds 0.35. -/
def techSwitchHits (olderText newerText : String) : List Switch :=
  (detectTechSwitches newerText).filter fun sw => sw.fromT ∈ tokenize olderText

/-- Step 3, newer-side: one tech_switch signal and 0.35 per hit. -/
def techPart (olderText newerText : String) : List Signal × ℚ :=
  ((techSwitchHits olderText newerText).map Signal.tech_switch,
   ((techSwitchHits olderText newerText).length : ℚ) * (35 / 100))

/-- The switches detected in the older item whose from- or
to-technology appears among the newer item tokens. -/
def priorSwitchHits (olderText newerText : String) : List Switch :=
  (detectTechSwitches olderText).filter fun sw =>
    sw.fromT ∈ tokenize newerText ∨ sw.toT ∈ tokenize newerText

/-- Step 3, older-side: one prior_switch signal and 0.15 per hit. -/
def priorPart (olderText newerText : String) : List Signal × ℚ :=
  ((priorSwitchHits olderText newerText).map Signal.prior_switch,
   ((priorSwitchHits olderText newerText).length : ℚ) * (15 / 100))

/-- Step 4: one contradictory_adjective signal and 0.2 per adjective
pair found. -/
def adjPart (olderText newerText : String) : List Signal × ℚ :=
  let cs := findContradictoryAdjectives olderText newerText
  (cs.map fun p => Signal.contradictory_adjective p.1 p.2,
   (cs.length : ℚ) * (20 / 100))

/-- Step 5: temporal override phrases in the newer item, gated on a
shared keyword; weight 0.2 + 0.05 per matched phrase. -/
def temporalPart (olderText newerText : String) : List Signal × ℚ :=
  let overrides := findMatchingPhrases newerText TEMPORAL_OVERRIDE_PHRASES
  let shared := sharedTokensOf olderText newerText
  if 0 < overrides.length ∧ 0 < shared.length then
    ([Signal.temporal_override overrides shared],
     20 / 100 + (overrides.length : ℚ) * (5 / 100))
  else ([], 0)

/-- The Jaccard similarity of the two item token sets (step 1). -/
def itemOverlap (olderText newerText : String) : ℚ :=
  jaccardSimilarity (tokenize olderText).toFinset (tokenize newerText).toFinset

/-- Step 6: overlap boost when the raw similarity exceeds 0.15. -/
def boostScore (olderText newerText : String) : ℚ :=
  if 15 / 100 < itemOverlap olderText newerText then
    itemOverlap olderText newerText * (30 / 100)
  else 0

/-- All signals of one item pair, in the push order of the source. -/
def pairSignals (olderText newerText : String) : List Signal :=
  (negationPart olderText newerText).1 ++ (reversePart olderText newerText).1 ++
    (techPart olderText newerText).1 ++ (priorPart olderText newerText).1 ++
    (adjPart olderText newerText).1 ++ (temporalPart olderText newerText).1

/-- The uncapped composite score of one item pair. -/
def pairScore (olderText newerText : String) : ℚ :=
  (negationPart olderText newerText).2 + (reversePart olderText newerText).2 +
    (techPart olderText newerText).2 + (priorPart olderText newerText).2 +
    (adjPart olderText newerText).2 + (temporalPart olderText newerText).2 +
    boostScore olderText newerText

/-- The inner body of the compareDecisions double loop for one
(older item, newer item) pair: the 0.05 overlap gate, then the signal
steps, then emission only when at least one signal fired, with the
score capped at 1. -/
def compareItemPair (olderText newerText olderType newerType : String) :
    Option RawCandidate :=
  if itemOverlap olderText newerText < 5 / 100 then none
  else if pairSignals olderText newerText = [] then none
  else some
    { olderContent := olderText
      newerContent := newerText
      olderContentType := olderType
      newerContentType := newerType
      signals := pairSignals olderText newerText
      score := min (pairScore olderText newerText) 1 }

/-- compareDecisions(older, newer): every decision/insight item of the
older summary against every one of the newer summary, skipping items
with no tokens, collecting the emitted candidates in loop order. -/
def compareDecisions (older newer : Summary) : List RawCandidate :=
  let olderItems := older.decisions.map (fun d => (d, "decision")) ++
    older.keyInsights.map (fun i => (i, "insight"))
  let newerItems := newer.decisions.map (fun d => (d, "decision")) ++
    newer.keyInsights.map (fun i => (i, "insight"))
  if olderItems.isEmpty || newerItems.isEmpty then []
  else olderItems.flatMap fun oi =>
    if (tokenize oi.1).isEmpty then []
    else newerItems.filterMap fun ni =>
      if (tokenize ni.1).isEmpty then none
      else compareItemPair oi.1 ni.1 oi.2 ni.2

/-- compareSummaryLevel(older, newer): whole-summary tech-switch check
against the older keyword set, and the two-or-more contradictory
adjective check behind the 0.15 keyword-overlap gate. -/
def compareSummaryLevel (older newer : Summary) : List RawCandidate :=
  let olderText := String.intercalate " "
    ([older.title, older.summary] ++ older.decisions ++ older.keyInsights)
  let newerText := String.intercalate " "
    ([newer.title, newer.summary] ++ newer.decisions ++ newer.keyInsights)
  let olderKeywords := extractKeywords older
  let switchCands := (detectTechSwitches newerText).filterMap fun sw =>
    if sw.fromT ∈ olderKeywords then
      some { olderContent := "Summary \"" ++ older.title ++ "\" discusses " ++ sw.fromT
             newerContent := "Summary \"" ++ newer.title ++ "\" suggests: " ++ sw.pattern
             olderContentType := "summary"
             newerContentType := "summary"
             signals := [Signal.summary_level_tech_switch sw]
             score := (30 : ℚ) / 100 }
    else none
  let newerKeywords := extractKeywords newer
  let keywordOverlap := jaccardSimilarity olderKeywords newerKeywords
  let adjCands :=
    if 15 / 100 < keywordOverlap then
      let adjConflicts := findContradictoryAdjectives olderText newerText
      if 2 ≤ adjConflicts.length then
        [{ olderContent := "Summary \"" ++ older.title ++ "\""
           newerContent := "Summary \"" ++ newer.title ++ "\""
           olderContentType := "summary"
           newerContentType := "summary"
           signals := adjConflicts.map fun p => Signal.summary_adjective_conflict p.1 p.2
           score := min ((20 : ℚ) / 100 + (adjConflicts.length : ℚ) * (10 / 100)) (70 / 100) }]
      else []
    else []
  switchCands ++ adjCands

/-- A candidate conflict pair as returned by findCandidateConflicts /
built by checkNewSummary. -/
structure Candidate where
  olderSummaryId : String
  newerSummaryId : String
  olderTopicId : Option String
  newerTopicId : Option String
  olderContent : String
  newerContent : String
  signals : List Signal
  heuristicScore : ℚ
deriving DecidableEq, Repr

/-- Attaches record/topic ids to a raw candidate. -/
def mkCandidate (older newer : Summary) (c : RawCandidate) : Candidate :=
  { olderSummaryId := older.id
    newerSummaryId := newer.id
    olderTopicId := older.topicId
    newerTopicId := newer.topicId
    olderContent := c.olderContent
    newerContent := c.newerContent
    signals := c.signals
    heuristicScore := c.score }

/-- The deduplication key of a candidate, exactly the template string
the source builds. -/
def candKey (c : Candidate) : String :=
  c.olderSummaryId ++ "|" ++ c.newerSummaryId ++ "|" ++ c.olderContent ++ "|" ++
    c.newerContent

/-- First-keeper deduplication by candKey, as the seen-set loop of the
source produces. -/
def dedupByKey : List String → List Candidate → List Candidate
  | _, [] => []
  | seen, c :: rest =>
    if candKey c ∈ seen then dedupByKey seen rest
    else c :: dedupByKey (candKey c :: seen) rest

/-- Stable insertion into a sorted list: the inserted element goes in
front of the first element it compares less-or-equal to. -/
def insertLe {α : Type} (le : α → α → Bool) (x : α) : List α → List α
  | [] => [x]
  | y :: ys => if le x y then x :: y :: ys else y :: insertLe le x ys

/-- Stable sort.  ECMAScript sorts are stable and a comparator that
returns NaN is treated as returning zero, so for the comparators used
here (whose ties include every NaN-timestamp comparison) the sorted
array is the unique stable reordering that this insertion sort
computes. -/
def sortLe {α : Type} (le : α → α → Bool) : List α → List α
  | [] => []
  | x :: xs => insertLe le x (sortLe le xs)

/-- Comparator of the chronological group sort, derived from the JS
comparator a.createdAt - b.createdAt with NaN coerced to zero. -/
def timeLE (a b : Option Int) : Bool :=
  match a, b with
  | some x, some y => x ≤ y
  | _, _ => true

/-- Ordered index pairs i < j of a list, in loop order. -/
def pairsOf {α : Type} : List α → List (α × α)
  | [] => []
  | x :: xs => xs.map (fun y => (x, y)) ++ pairsOf xs

/-- Appends a summary to its topic group, creating the group at the end
on first sight of the key — the insertion-order behaviour of a JS Map. -/
def insertGroup : List (String × List Summary) → String → Summary →
    List (String × List Summary)
  | [], t, s => [(t, [s])]
  | (k, g) :: rest, t, s =>
    if k = t then (k, g ++ [s]) :: rest else (k, g) :: insertGroup rest t s

/-- Groups the summaries with a truthy topicId by topic; summaries
without one land in the unassigned bucket, which the source never reads
again, so it is not materialised here. -/
def groupByTopic (summaries : List Summary) : List (String × List Summary) :=
  summaries.foldl
    (fun acc s =>
      match s.topicId with
      | some t => if t = "" then acc else insertGroup acc t s
      | none => acc)
    []

/-- Lookup in the topic Map; Map.set overwrites, so the last topic with
a given id wins. -/
def topicMapGet (topics : List Topic) (id : String) : Option Topic :=
  topics.reverse.find? fun t => t.id == id

/-- Runs both matchers on an ordered pair and keeps results at or above
the heuristic score threshold. -/
def candidatesFor (older newer : Summary) : List Candidate :=
  (compareDecisions older newer ++ compareSummaryLevel older newer).filterMap
    fun c =>
      if HEURISTIC_SCORE_THRESHOLD ≤ c.score then some (mkCandidate older newer c)
      else none

/-- findCandidateConflicts(): topic grouping, chronological sort,
intra-topic pass, cross-topic pass behind the 0.5 tag-overlap gate,
deduplication and descending score sort. -/
def findCandidateConflicts (summaries : List Summary) (topics : List Topic) :
    List Candidate :=
  if summaries.length < 2 then []
  else
    let byTopic := (groupByTopic summaries).map fun g =>
      (g.1, sortLe (fun a b => timeLE a.createdAt b.createdAt) g.2)
    let intra := byTopic.flatMap fun g =>
      (pairsOf g.2).flatMap fun p => candidatesFor p.1 p.2
    let cross := (pairsOf byTopic).flatMap fun gp =>
      match topicMapGet topics gp.1.1, topicMapGet topics gp.2.1 with
      | some topicA, some topicB =>
        if 1 / 2 < tagOverlap topicA.tags topicB.tags then
          gp.1.2.flatMap fun sA => gp.2.2.flatMap fun sB =>
            let older := if jsLe sA.createdAt sB.createdAt then sA else sB
            let newer := if jsLe sA.createdAt sB.createdAt then sB else sA
            candidatesFor older newer
        else []
      | _, _ => []
    sortLe (fun a b => b.heuristicScore ≤ a.heuristicScore)
      (dedupByKey [] (intra ++ cross))

/-- Conflict metadata block. -/
structure Metadata where
  modelUsed : Option String
  providerUsed : Option String
  confidenceScore : Option ℚ
  heuristicScore : ℚ
  tokensUsed : Nat
  signals : List Signal
deriving DecidableEq, Repr

/-- A durable Conflict record.  status, type, severity and resolution
are the raw strings the source stores. -/
structure Conflict where
  id : String
  type : String
  severity : String
  status : String
  olderSummaryId : String
  newerSummaryId : String
  olderTopicId : Option String
  newerTopicId : Option String
  olderContent : String
  newerContent : String
  analysis : String
  recommendation : String
  resolvedAt : Option String
  resolution : Option String
  resolutionNote : Option String
  detectedAt : String
  metadata : Metadata
deriving DecidableEq, Repr

/-- The deduplication key of a stored conflict. -/
def conflictKey (c : Conflict) : String :=
  c.olderSummaryId ++ "|" ++ c.newerSummaryId ++ "|" ++ c.olderContent ++ "|" ++
    c.newerContent

/-- The judgment the engine extracts from one successful AI call: the
JSON.parse result of the reply (fields the judge may omit are Option)
together with the transport metadata of the reply.  A transport error
or a JSON.parse failure is modelled as the absence of any reply (none
from the judge function), which the source catches and maps to null. -/
structure JudgeReply where
  isConflict : Bool
  jtype : Option String
  severity : Option String
  analysis : Option String
  recommendation : Option String
  confidenceScore : Option ℚ
  model : String
  providerType : String
  tokensUsed : Nat
deriving DecidableEq, Repr

/-- The judgment service: deterministic per candidate within a scan. -/
def Judge : Type := Candidate → Option JudgeReply

/-- JS less-than against a number that may be NaN/undefined: a missing
confidenceScore compares false, exactly as parsed.confidenceScore < 0.6
evaluates to false when the field is absent. -/
def jsLtOpt (a : Option ℚ) (b : ℚ) : Bool :=
  match a with
  | some q => q < b
  | none => false

/-- verifySingleCandidate(candidate): asks the judge, discards the
candidate on a missing reply (error path) or when the gate
(!isConflict || confidenceScore < 0.6) fires, and otherwise builds the
open conflict record of the source with the supplied fresh id and
timestamp. -/
def verifySingleCandidate (judge : Judge) (freshId now : String)
    (c : Candidate) : Option Conflict :=
  match judge c with
  | none => none
  | some r =>
    if !r.isConflict || jsLtOpt r.confidenceScore AI_CONFIDENCE_THRESHOLD then none
    else some
      { id := freshId
        type := jsOr r.jtype "approach_conflict"
        severity := jsOr r.severity "medium"
        status := "open"
        olderSummaryId := c.olderSummaryId
        newerSummaryId := c.newerSummaryId
        olderTopicId := c.olderTopicId
        newerTopicId := c.newerTopicId
        olderContent := c.olderContent
        newerContent := c.newerContent
        analysis := jsOr r.analysis ""
        recommendation := jsOr r.recommendation ""
        resolvedAt := none
        resolution := none
        resolutionNote := none
        detectedAt := now
        metadata :=
          { modelUsed := some r.model
            providerUsed := some r.providerType
            confidenceScore := r.confidenceScore
            heuristicScore := c.heuristicScore
            tokensUsed := r.tokensUsed
            signals := c.signals } }

/-- Fuel-indexed batching into chunks of MAX_CONCURRENT_AI_REQUESTS. -/
def chunks5Fuel {α : Type} : Nat → List α → List (List α)
  | 0, _ => []
  | _, [] => []
  | fuel + 1, a :: l => (a :: l.take 4) :: chunks5Fuel fuel (l.drop 4)

/-- The verification batches of size 5. -/
def chunks5 {α : Type} (l : List α) : List (List α) := chunks5Fuel l.length l

/-- verifyConflicts(candidates, options): nothing without a provider;
otherwise the top maxCandidates (options.maxCandidates || 20, so a zero
falls back to 20) are judged in batches of five, and the fulfilled
non-null results are collected in order.  verifySingleCandidate never
rejects, so Promise.allSettled sees only fulfilled outcomes. -/
def verifyConflicts (judge : Judge) (hasProvider : Bool)
    (candidates : List Candidate) (maxCandidates : Nat)
    (freshIds : Nat → String) (now : String) : List Conflict :=
  if candidates.isEmpty then []
  else if !hasProvider then []
  else
    let maxC := if maxCandidates = 0 then 20 else maxCandidates
    let toVerify := (candidates.take maxC).enum
    (chunks5 toVerify).flatMap fun batch =>
      batch.filterMap fun p => verifySingleCandidate judge (freshIds p.1) now p.2

/-- The heuristic-only conflict record built, with identical field
values, both by the no-AI branch of checkNewSummary and by the
no-provider branch of runFullScan. -/
def heuristicOnlyConflict (freshId now : String) (c : Candidate) : Conflict :=
  { id := freshId
    type := "approach_conflict"
    severity := if 7 / 10 ≤ c.heuristicScore then "high" else "medium"
    status := "open"
    olderSummaryId := c.olderSummaryId
    newerSummaryId := c.newerSummaryId
    olderTopicId := c.olderTopicId
    newerTopicId := c.newerTopicId
    olderContent := c.olderContent
    newerContent := c.newerContent
    analysis := "Heuristic analysis detected potential conflict based on: " ++
      String.intercalate "; " (c.signals.map Signal.render)
    recommendation := "Review both items and decide which reflects your current thinking."
    resolvedAt := none
    resolution := none
    resolutionNote := none
    detectedAt := now
    metadata :=
      { modelUsed := none
        providerUsed := none
        confidenceScore := some c.heuristicScore
        heuristicScore := c.heuristicScore
        tokensUsed := 0
        signals := c.signals } }

/-- The heuristic-only acceptance pass shared by checkNewSummary and
runFullScan when no judge is available: candidates scoring at least 0.5
become open conflicts. -/
def heuristicOnlyPass (freshIds : Nat → String) (now : String)
    (candidates : List Candidate) : List Conflict :=
  candidates.enum.filterMap fun p =>
    if 5 / 10 ≤ p.2.heuristicScore then
      some (heuristicOnlyConflict (freshIds p.1) now p.2)
    else none

/-- The comparability filter of checkNewSummary: exclude the record
itself, always compare within the same topic, and across topics only
above 0.5 tag overlap. -/
def comparableTo (s existing : Summary) : Bool :=
  if existing.id = s.id then false
  else if truthyOpt s.topicId && existing.topicId == s.topicId then true
  else 1 / 2 < tagOverlap s.tags existing.tags

/-- The candidate-building stage of checkNewSummary(summary): filter to
comparable records, order each pair by parsed timestamp (a comparison
against a NaN timestamp is false, putting the new record on the older
side), run both matchers, threshold, and deduplicate. -/
def checkNewSummaryCandidates (s : Summary) (existingSummaries : List Summary) :
    List Candidate :=
  if s.id = "" then []
  else if existingSummaries.isEmpty then []
  else
    let comparables := existingSummaries.filter (comparableTo s)
    if comparables.isEmpty then []
    else
      let candidates := comparables.flatMap fun e =>
        let older := if jsLe e.createdAt s.createdAt then e else s
        let newer := if jsLe e.createdAt s.createdAt then s else e
        candidatesFor older newer
      dedupByKey [] candidates

/-- checkNewSummary(summary, options): builds candidates, verifies them
with the judge when requested and available (capped at 10) or falls
back to the heuristic-only pass, and appends every resulting conflict
to the ledger.  Returns the conflicts and the new ledger. -/
def checkNewSummary (s : Summary) (existingSummaries : List Summary)
    (useAI hasProvider : Bool) (judge : Judge) (freshIds : Nat → String)
    (now : String) (ledger : List Conflict) : List Conflict × List Conflict :=
  let deduplicated := checkNewSummaryCandidates s existingSummaries
  if deduplicated.isEmpty then ([], ledger)
  else
    let conflicts :=
      if useAI && hasProvider then
        verifyConflicts judge hasProvider deduplicated 10 freshIds now
      else heuristicOnlyPass freshIds now deduplicated
    (conflicts, ledger ++ conflicts)

/-- updateConflict(conflictId, updates): finds the first conflict with
the id, applies the field updates to it in place, and returns it; a
missing id is a warned no-op returning null. -/
def updateConflict (conflictId : String) (f : Conflict → Conflict)
    (ledger : List Conflict) : Option Conflict × List Conflict :=
  match ledger.findIdx? (fun c => c.id == conflictId) with
  | none => (none, ledger)
  | some i =>
    match ledger.get? i with
    | none => (none, ledger)
    | some c => (some (f c), ledger.set i (f c))

/-- The valid resolution strategies. -/
def validResolutions : List String := ["keep_newer", "keep_older", "keep_both", "custom"]

/-- The field updates resolveConflict applies to the found conflict. -/
def resolveUpdate (now resolution note : String) (c : Conflict) : Conflict :=
  { c with
    status := "resolved"
    resolution := some resolution
    resolutionNote := some note
    resolvedAt := some now }

/-- resolveConflict(conflictId, resolution, note): falsy arguments and
resolutions outside validResolutions are rejected with null and no
ledger mutation; otherwise the conflict is marked resolved with the
resolution, the note and a resolvedAt stamp. -/
def resolveConflict (now conflictId resolution note : String)
    (ledger : List Conflict) : Option Conflict × List Conflict :=
  if conflictId = "" ∨ resolution = "" then (none, ledger)
  else if resolution ∉ validResolutions then (none, ledger)
  else updateConflict conflictId (resolveUpdate now resolution note) ledger

/-- dismissConflict(conflictId): marks the conflict dismissed with a
resolvedAt stamp; a falsy id is rejected with null. -/
def dismissConflict (now conflictId : String) (ledger : List Conflict) :
    Option Conflict × List Conflict :=
  if conflictId = "" then (none, ledger)
  else updateConflict conflictId
    (fun c => { c with status := "dismissed", resolvedAt := some now })
    ledger

/-- The scan summary runFullScan returns. -/
structure ScanResult where
  found : Nat
  verified : Nat
  conflicts : List Conflict
deriving DecidableEq, Repr

/-- runFullScan(options): heuristic discovery, threshold filter,
exclusion of candidates whose dedup key is already in the ledger, then
AI verification (or the heuristic-only pass without a provider), and
appending every stored conflict to the ledger.  found counts the
pre-exclusion filtered candidates; verified counts the conflicts stored
this run. -/
def runFullScan (summaries : List Summary) (topics : List Topic) (judge : Judge)
    (hasProvider : Bool) (freshIds : Nat → String) (now : String)
    (maxCandidates : Nat) (heuristicThreshold : ℚ) (ledger : List Conflict) :
    ScanResult × List Conflict :=
  let candidates := findCandidateConflicts summaries topics
  let filteredCandidates := candidates.filter fun c =>
    heuristicThreshold ≤ c.heuristicScore
  if filteredCandidates.isEmpty then
    ({ found := 0, verified := 0, conflicts := [] }, ledger)
  else
    let existingKeys := ledger.map conflictKey
    let newCandidates := filteredCandidates.filter fun c => candKey c ∉ existingKeys
    if newCandidates.isEmpty then
      ({ found := filteredCandidates.length, verified := 0, conflicts := [] }, ledger)
    else
      let verifiedConflicts :=
        if hasProvider then
          verifyConflicts judge hasProvider newCandidates maxCandidates freshIds now
        else heuristicOnlyPass freshIds now newCandidates
      ({ found := filteredCandidates.length
         verified := verifiedConflicts.length
         conflicts := verifiedConflicts },
       ledger ++ verifiedConflicts)

/-- The verification gate as a predicate of the judge alone: a reply
arrived, it affirms the conflict, and the JS comparison
confidenceScore < 0.6 is false. -/
def judgePass (j : Judge) (c : Candidate) : Bool :=
  match j c with
  | none => false
  | some r => r.isConflict && !(jsLtOpt r.confidenceScore AI_CONFIDENCE_THRESHOLD)

/-- The reply of a judge that affirms a conflict but omits the
confidenceScore field of the required schema. -/
def noConfidenceReply : JudgeReply :=
  { isConflict := true
    jtype := none
    severity := none
    analysis := none
    recommendation := none
    confidenceScore := none
    model := "m"
    providerType := "p"
    tokensUsed := 0 }

/-- A minimal candidate for exercising the verification gate. -/
def sampleCandidate : Candidate :=
  { olderSummaryId := "o"
    newerSummaryId := "n"
    olderTopicId := none
    newerTopicId := none
    olderContent := "x"
    newerContent := "y"
    signals := []
    heuristicScore := 9 / 10 }

/-- Is a signal a tech_switch signal of the item-pair matcher? -/
def isTechSwitchSig : Signal → Bool
  | .tech_switch _ => true
  | _ => false

/-- The item-pair score without the tech-switch contribution. -/
def pairScoreRest (olderText newerText : String) : ℚ :=
  (negationPart olderText newerText).2 + (reversePart olderText newerText).2 +
    (priorPart olderText newerText).2 + (adjPart olderText newerText).2 +
    (temporalPart olderText newerText).2 + boostScore olderText newerText

/-- Older summary whose decision mentions both technologies that the
newer decision switches away from. -/
def twoSwitchOlder : Summary :=
  { id := "o4"
    topicId := some "t4"
    title := ""
    summary := ""
    decisions := ["alpha gamma daily"]
    keyInsights := []
    tags := []
    createdAt := some 0 }

/-- Newer summary whose single decision contains two occurrences of the
replace-with surface form. -/
def twoSwitchNewer : Summary :=
  { id := "n4"
    topicId := some "t4"
    title := ""
    summary := ""
    decisions := ["replaced alpha with beta and replaced gamma with delta"]
    keyInsights := []
    tags := []
    createdAt := some 1 }

/-- The single candidate the matcher emits for the two summaries above. -/
def twoSwitchCandidate : RawCandidate :=
  { olderContent := "alpha gamma daily"
    newerContent := "replaced alpha with beta and replaced gamma with delta"
    olderContentType := "decision"
    newerContentType := "decision"
    signals := [Signal.negation_pattern ["replace"] ["alpha", "gamma"],
      Signal.tech_switch
        { fromT := "alpha", toT := "beta", pattern := "replaced alpha with beta" }]
    score := 3 / 4 }

/-- The candidate emitted for a single-switch newer fragment. -/
def oneSwitchCandidate : RawCandidate :=
  { olderContent := "alpha daily"
    newerContent := "replaced alpha with beta"
    olderContentType := "decision"
    newerContentType := "decision"
    signals := [Signal.negation_pattern ["replace"] ["alpha"],
      Signal.tech_switch
        { fromT := "alpha", toT := "beta", pattern := "replaced alpha with beta" }]
    score := 29 / 40 }

/-- The per-record invariant of the Conflict lifecycle: an open
conflict has no resolvedAt and no resolution. -/
def ConflictInv (c : Conflict) : Prop :=
  c.status = "open" → c.resolvedAt = none ∧ c.resolution = none

/-- The invariant over a whole ledger. -/
def LedgerInv (L : List Conflict) : Prop := ∀ c ∈ L, ConflictInv c

/-- Well-formedness of the topic-group accumulator: every key is a
truthy topic id and every member of a group carries that id. -/
def GroupsOK (acc : List (String × List Summary)) : Prop :=
  ∀ p ∈ acc, p.1 ≠ "" ∧ ∀ s ∈ p.2, s.topicId = some p.1

/-- Older summary of the two-record demonstration corpus. -/
def corpusOlder : Summary :=
  { id := "s1"
    topicId := some "t1"
    title := ""
    summary := ""
    decisions := ["api gateway fast reliable", "api proxy fast reliable"]
    keyInsights := []
    tags := []
    createdAt := some 100 }

/-- Newer summary of the two-record demonstration corpus. -/
def corpusNewer : Summary :=
  { id := "s2"
    topicId := some "t1"
    title := ""
    summary := ""
    decisions := ["api gateway slow unreliable"]
    keyInsights := []
    tags := []
    createdAt := some 200 }

/-- The top-scoring candidate the scan finds on the demonstration
corpus. -/
def firstCandidate : Candidate :=
  { olderSummaryId := "s1"
    newerSummaryId := "s2"
    olderTopicId := some "t1"
    newerTopicId := some "t1"
    olderContent := "api gateway fast reliable"
    newerContent := "api gateway slow unreliable"
    signals := [Signal.contradictory_adjective "fast" "slow",
      Signal.contradictory_adjective "reliable" "reliable"]
    heuristicScore := 1 / 2 }

/-- The freshly created summary of the single-record check scenarios. -/
def newSummary : Summary :=
  { id := "new1"
    topicId := some "tA"
    title := ""
    summary := ""
    decisions := ["api fast"]
    keyInsights := []
    tags := []
    createdAt := some 100 }

/-- An existing record of the same topic whose timestamp is later than
the new record. -/
def laterExisting : Summary :=
  { id := "ex1"
    topicId := some "tA"
    title := ""
    summary := ""
    decisions := ["api slow"]
    keyInsights := []
    tags := []
    createdAt := some 200 }

/-- The candidate the single-record check builds for newSummary against
laterExisting: the new record sits on the older side. -/
def roleFlippedCandidate : Candidate :=
  { olderSummaryId := "new1"
    newerSummaryId := "ex1"
    olderTopicId := some "tA"
    newerTopicId := some "tA"
    olderContent := "api fast"
    newerContent := "api slow"
    signals := [Signal.contradictory_adjective "fast" "slow"]
    heuristicScore := 3 / 10 }

/-- An existing record of the same topic whose timestamp precedes the
new record. -/
def earlierExisting : Summary :=
  { id := "ex0"
    topicId := some "tA"
    title := ""
    summary := ""
    decisions := ["api slow"]
    keyInsights := []
    tags := []
    createdAt := some 50 }

/-- The candidate built for newSummary against earlierExisting: the new
record sits on the newer side. -/
def roleKeptCandidate : Candidate :=
  { olderSummaryId := "ex0"
    newerSummaryId := "new1"
    olderTopicId := some "tA"
    newerTopicId := some "tA"
    olderContent := "api slow"
    newerContent := "api fast"
    signals := [Signal.contradictory_adjective "slow" "fast"]
    heuristicScore := 3 / 10 }

/-- A judge that affirms every candidate with full confidence. -/
def acceptingReply : JudgeReply :=
  { isConflict := true
    jtype := some "decision_conflict"
    severity := some "high"
    analysis := some "a"
    recommendation := some "r"
    confidenceScore := some 1
    model := "m"
    providerType := "p"
    tokensUsed := 5 }

/-- The always-accepting judgment service. -/
def acceptingJudge : Judge := fun _ => some acceptingReply

/-- Fresh conflict ids of the first scan. -/
def runIds1 : Nat → String := fun n => "run1-" ++ toString n

/-- Fresh conflict ids of the second scan. -/
def runIds2 : Nat → String := fun n => "run2-" ++ toString n

/-! Helper lemmas shared by the claim theorems. -/

theorem union_card_eq (A B : Finset String) :
    A.card + B.card - (A ∩ B).card = (A ∪ B).card := by
  have h := Finset.card_union_add_card_inter A B
  omega

theorem jaccard_inter_card_zero {A B : Finset String}
    (h : (A ∩ B).card = 0) : jaccardSimilarity A B = 0 := by
  unfold jaccardSimilarity
  split
  · rfl
  · simp only [h]
    split
    · rfl
    · simp

theorem compareItemPair_eq_some {o n ot nt : String} {c : RawCandidate}
    (h : compareItemPair o n ot nt = some c) :
    c.signals = pairSignals o n ∧ c.score = min (pairScore o n) 1 ∧
      pairSignals o n ≠ [] ∧ ¬ itemOverlap o n < 5 / 100 := by
  unfold compareItemPair at h
  split at h
  · exact absurd h (by simp)
  next hov =>
    split at h
    · exact absurd h (by simp)
    next hsig =>
      cases h
      exact ⟨rfl, rfl, hsig, hov⟩

theorem mem_compareDecisions {older newer : Summary} {c : RawCandidate}
    (h : c ∈ compareDecisions older newer) :
    ∃ o n ot nt, compareItemPair o n ot nt = some c := by
  simp only [compareDecisions] at h
  split at h
  · exact absurd h (List.not_mem_nil c)
  · rw [List.mem_flatMap] at h
    obtain ⟨oi, _, hinner⟩ := h
    split at hinner
    · exact absurd hinner (List.not_mem_nil c)
    · rw [List.mem_filterMap] at hinner
      obtain ⟨ni, _, hsome⟩ := hinner
      split at hsome
      · exact absurd hsome (by simp)
      · exact ⟨oi.1, ni.1, oi.2, ni.2, hsome⟩

/-- C7: jaccardSimilarity computes intersection over union, returns 0
on two empty sets, returns 1 on equal non-empty sets, and always lands
in the unit interval. -/
theorem jaccardSimilarity_meets_spec (A B : Finset String) :
    jaccardSimilarity A B = ((A ∩ B).card : ℚ) / ((A ∪ B).card : ℚ) ∧
    jaccardSimilarity ∅ ∅ = 0 ∧
    (A = B → A ≠ ∅ → jaccardSimilarity A B = 1) ∧
    0 ≤ jaccardSimilarity A B ∧ jaccardSimilarity A B ≤ 1 := by
  have hempty : jaccardSimilarity ∅ ∅ = 0 := by
    unfold jaccardSimilarity
    simp
  by_cases hz : A.card = 0 ∧ B.card = 0
  · have hA : A = ∅ := Finset.card_eq_zero.mp hz.1
    have hB : B = ∅ := Finset.card_eq_zero.mp hz.2
    subst hA; subst hB
    refine ⟨?_, hempty, ?_, ?_, ?_⟩
    · simp [hempty]
    · intro _ hne; exact absurd rfl hne
    · simp [hempty]
    · simp [hempty]
  · have hueq : A.card + B.card - (A ∩ B).card = (A ∪ B).card := union_card_eq A B
    have huz : (A ∪ B).card ≠ 0 := by
      intro h0
      rcases Finset.card_eq_zero.mp h0 with h0'
      have hA : A = ∅ := by
        have := Finset.union_eq_empty.mp h0'
        exact this.1
      have hB : B = ∅ := (Finset.union_eq_empty.mp h0').2
      exact hz ⟨by simp [hA], by simp [hB]⟩
    have hmain : jaccardSimilarity A B = ((A ∩ B).card : ℚ) / ((A ∪ B).card : ℚ) := by
      unfold jaccardSimilarity
      rw [if_neg hz]
      simp only [hueq]
      rw [if_neg huz]
    have hle : (A ∩ B).card ≤ (A ∪ B).card :=
      Finset.card_le_card Finset.inter_subset_union
    have hupos : (0 : ℚ) < ((A ∪ B).card : ℚ) := by
      exact_mod_cast Nat.pos_of_ne_zero huz
    refine ⟨hmain, hempty, ?_, ?_, ?_⟩
    · intro hAB _
      subst hAB
      rw [hmain]
      rw [Finset.inter_self, Finset.union_self]
      exact div_self (ne_of_gt (by exact_mod_cast Nat.pos_of_ne_zero (by simpa using huz)))
    · rw [hmain]
      positivity
    · rw [hmain]
      rw [div_le_one hupos]
      exact_mod_cast hle

/-- Witness for C7 at a concrete non-empty set. -/
theorem jaccardSimilarity_meets_spec_witness :
    jaccardSimilarity ({"alpha"} : Finset String) {"alpha"} = 1 :=
  (jaccardSimilarity_meets_spec {"alpha"} {"alpha"}).2.2.1 rfl (by decide)

/-- C6: two fragments with disjoint token sets are rejected by the
0.05 Jaccard gate before any pattern work, so the matcher emits no
signals and no candidate for them. -/
theorem compareItemPair_disjoint_tokens_none (o n ot nt : String)
    (h : (tokenize o).toFinset ∩ (tokenize n).toFinset = ∅) :
    compareItemPair o n ot nt = none := by
  have hov : itemOverlap o n = 0 := by
    unfold itemOverlap
    exact jaccard_inter_card_zero (by rw [h]; rfl)
  unfold compareItemPair
  rw [if_pos]
  rw [hov]
  norm_num

/-- Witness for C6 at concrete disjoint fragments. -/
theorem compareItemPair_disjoint_tokens_none_witness :
    compareItemPair "alpha beta" "gamma delta" "decision" "decision" = none :=
  compareItemPair_disjoint_tokens_none "alpha beta" "gamma delta" "decision" "decision"
    (by decide)

/-- C5: every candidate emitted by the pairwise matcher has score at
most 1, and a pair with no signals emits nothing — the signal list of
an emitted candidate is never empty, whatever the overlap boost would
have contributed. -/
theorem compareDecisions_capped_and_signalful (older newer : Summary)
    (c : RawCandidate) (h : c ∈ compareDecisions older newer) :
    c.score ≤ 1 ∧ c.signals ≠ [] := by
  obtain ⟨o, n, ot, nt, hsome⟩ := mem_compareDecisions h
  obtain ⟨hsig, hscore, hne, -⟩ := compareItemPair_eq_some hsome
  constructor
  · rw [hscore]; exact min_le_right _ _
  · rw [hsig]; exact hne

/-- Witness for C5 at a concrete conflicting pair. -/
theorem compareDecisions_capped_and_signalful_witness :
    ({ olderContent := "api fast", newerContent := "api slow",
       olderContentType := "decision", newerContentType := "decision",
       signals := [Signal.contradictory_adjective "fast" "slow"],
       score := 3 / 10 } : RawCandidate) ∈
      compareDecisions
        { id := "a", topicId := none, title := "", summary := "",
          decisions := ["api fast"], keyInsights := [], tags := [], createdAt := some 0 }
        { id := "b", topicId := none, title := "", summary := "",
          decisions := ["api slow"], keyInsights := [], tags := [], createdAt := some 1 } ∧
    (3 : ℚ) / 10 ≤ 1 :=
  ⟨by with_unfolding_all decide,
   by
    have h := compareDecisions_capped_and_signalful
      { id := "a", topicId := none, title := "", summary := "",
        decisions := ["api fast"], keyInsights := [], tags := [], createdAt := some 0 }
      { id := "b", topicId := none, title := "", summary := "",
        decisions := ["api slow"], keyInsights := [], tags := [], createdAt := some 1 }
      { olderContent := "api fast", newerContent := "api slow",
        olderContentType := "decision", newerContentType := "decision",
        signals := [Signal.contradictory_adjective "fast" "slow"],
        score := 3 / 10 }
      (by with_unfolding_all decide)
    exact h.1⟩

theorem verifySingle_isSome_eq (j : Judge) (id now : String) (c : Candidate) :
    (verifySingleCandidate j id now c).isSome = judgePass j c := by
  unfold verifySingleCandidate judgePass
  cases hj : j c with
  | none => rfl
  | some r =>
    cases hI : r.isConflict <;>
      cases hL : jsLtOpt r.confidenceScore AI_CONFIDENCE_THRESHOLD <;>
        simp [hI, hL]

theorem verifySingle_none_of_not_pass (j : Judge) (id now : String) (c : Candidate)
    (h : judgePass j c = false) : verifySingleCandidate j id now c = none := by
  have hs := verifySingle_isSome_eq j id now c
  rw [h] at hs
  exact Option.not_isSome_iff_eq_none.mp (by simp [hs])

theorem verifySingle_some_fields (j : Judge) (id now : String) (c : Candidate)
    (conf : Conflict) (h : verifySingleCandidate j id now c = some conf) :
    conflictKey conf = candKey c ∧ conf.status = "open" ∧
      conf.resolvedAt = none ∧ conf.resolution = none := by
  unfold verifySingleCandidate at h
  split at h
  · exact absurd h (by simp)
  · split at h
    · exact absurd h (by simp)
    · cases h
      exact ⟨rfl, rfl, rfl, rfl⟩

theorem chunks5Fuel_flatMap {α β : Type} (f : α → Option β) :
    ∀ (fuel : Nat) (l : List α), l.length ≤ fuel →
      (chunks5Fuel fuel l).flatMap (fun b => b.filterMap f) = l.filterMap f := by
  intro fuel
  induction fuel with
  | zero =>
    intro l hl
    have : l = [] := List.eq_nil_of_length_eq_zero (Nat.le_zero.mp hl)
    subst this
    rfl
  | succ n ih =>
    intro l hl
    cases l with
    | nil => rfl
    | cons a t =>
      show ((a :: t.take 4) :: chunks5Fuel n (t.drop 4)).flatMap (fun b => b.filterMap f) =
        (a :: t).filterMap f
      rw [List.flatMap_cons]
      rw [ih (t.drop 4)
        (by simp only [List.length_cons] at hl; simp only [List.length_drop]; omega)]
      rw [← List.filterMap_append]
      congr 1
      show a :: (t.take 4 ++ t.drop 4) = a :: t
      rw [List.take_append_drop]

theorem verifyConflicts_eq (j : Judge) (cands : List Candidate) (maxC : Nat)
    (ids : Nat → String) (now : String) :
    verifyConflicts j true cands maxC ids now =
      (cands.take (if maxC = 0 then 20 else maxC)).enum.filterMap
        (fun p => verifySingleCandidate j (ids p.1) now p.2) := by
  simp only [verifyConflicts]
  split
  next he =>
    have : cands = [] := by simpa using he
    subst this
    simp
  next he =>
    rw [if_neg (by simp)]
    exact chunks5Fuel_flatMap _ _ _ (Nat.le_refl _)

/-- C3 (amended): a candidate is persisted exactly when the judge
produced a parsed reply with isConflict true for which the JS check
confidenceScore < 0.6 is false (so a reply whose confidenceScore is
missing passes the gate, because a NaN comparison is false); a missing
reply — transport error or unparseable JSON — yields null; and the
batched verification is an order-preserving per-candidate filterMap, so
one candidate never affects the results of the other batch members. -/
theorem verifySingleCandidate_gate_and_batching :
    (∀ (j : Judge) (id now : String) (c : Candidate),
      (∃ conf, verifySingleCandidate j id now c = some conf) ↔
        (∃ r, j c = some r ∧ r.isConflict = true ∧
          jsLtOpt r.confidenceScore AI_CONFIDENCE_THRESHOLD = false)) ∧
    (∀ (j : Judge) (id now : String) (c : Candidate),
      j c = none → verifySingleCandidate j id now c = none) ∧
    (∀ (j : Judge) (cands : List Candidate) (maxC : Nat) (ids : Nat → String)
      (now : String),
      verifyConflicts j true cands maxC ids now =
        (cands.take (if maxC = 0 then 20 else maxC)).enum.filterMap
          fun p => verifySingleCandidate j (ids p.1) now p.2) := by
  refine ⟨?_, ?_, ?_⟩
  · intro j id now c
    rw [← Option.isSome_iff_exists, verifySingle_isSome_eq]
    unfold judgePass
    cases hj : j c with
    | none => simp
    | some r => simp [Bool.and_eq_true]
  · intro j id now c h
    simp only [verifySingleCandidate, h]
  · intro j cands maxC ids now
    exact verifyConflicts_eq j cands maxC ids now

/-- C3 counterexample: the claim says a candidate is persisted only if
the parsed confidenceScore is at least 0.6, but a reply whose
confidenceScore is absent is persisted, because the source tests
parsed.confidenceScore < 0.6, which is false for an undefined field
(NaN comparison). -/
theorem verifySingleCandidate_gate_counterexample :
    (verifySingleCandidate (fun _ => some noConfidenceReply) "cid" "t0"
      sampleCandidate).isSome = true ∧
    noConfidenceReply.isConflict = true ∧
    noConfidenceReply.confidenceScore = none := by
  refine ⟨?_, rfl, rfl⟩
  with_unfolding_all rfl

/-- Witness for C3 discharging the missing-reply hypothesis at a
concrete failing judge. -/
theorem verifySingleCandidate_gate_and_batching_witness :
    verifySingleCandidate (fun _ => none) "cid" "t0" sampleCandidate = none :=
  verifySingleCandidate_gate_and_batching.2.1 (fun _ => none) "cid" "t0"
    sampleCandidate rfl

theorem negationPart_no_tech (o n : String) :
    (negationPart o n).1.filter isTechSwitchSig = [] := by
  simp only [negationPart]
  split <;> rfl

theorem reversePart_no_tech (o n : String) :
    (reversePart o n).1.filter isTechSwitchSig = [] := by
  simp only [reversePart]
  split <;> rfl

theorem temporalPart_no_tech (o n : String) :
    (temporalPart o n).1.filter isTechSwitchSig = [] := by
  simp only [temporalPart]
  split <;> rfl

theorem filter_tech_map_tech (l : List Switch) :
    (l.map Signal.tech_switch).filter isTechSwitchSig = l.map Signal.tech_switch := by
  induction l with
  | nil => rfl
  | cons a t ih => simp_all [List.filter_cons, isTechSwitchSig]

theorem filter_tech_map_prior (l : List Switch) :
    (l.map Signal.prior_switch).filter isTechSwitchSig = [] := by
  induction l with
  | nil => rfl
  | cons a t ih => simp_all [List.filter_cons, isTechSwitchSig]

theorem filter_tech_map_adj (l : List (String × String)) :
    (l.map fun p => Signal.contradictory_adjective p.1 p.2).filter isTechSwitchSig = [] := by
  induction l with
  | nil => rfl
  | cons a t ih =>
    rw [List.map_cons, List.filter_cons]
    simpa [isTechSwitchSig] using ih

/-- C4 (amended): for every switch in the detected-switch list of the
newer fragment (at most one match per regex pattern, since the source
uses String.match without the global flag) whose from-technology is
among the older tokens, the emitted candidate carries its own
tech_switch signal and the score includes its own 0.35 — the
tech_switch signals are exactly the hits, and the capped score is the
remainder plus 0.35 per hit. -/
theorem compareItemPair_tech_switch_accounting (o n ot nt : String)
    (c : RawCandidate) (h : compareItemPair o n ot nt = some c) :
    c.signals.filter isTechSwitchSig = (techSwitchHits o n).map Signal.tech_switch ∧
    c.score = min (pairScoreRest o n + ((techSwitchHits o n).length : ℚ) * (35 / 100)) 1 := by
  obtain ⟨hsig, hscore, -, -⟩ := compareItemPair_eq_some h
  constructor
  · rw [hsig]
    unfold pairSignals
    simp only [List.filter_append]
    rw [negationPart_no_tech, reversePart_no_tech, temporalPart_no_tech]
    have htech : (techPart o n).1.filter isTechSwitchSig =
        (techSwitchHits o n).map Signal.tech_switch := by
      simp only [techPart]
      exact filter_tech_map_tech _
    have hprior : (priorPart o n).1.filter isTechSwitchSig = [] := by
      simp only [priorPart]
      exact filter_tech_map_prior _
    have hadj : (adjPart o n).1.filter isTechSwitchSig = [] := by
      simp only [adjPart]
      exact filter_tech_map_adj _
    rw [htech, hprior, hadj]
    simp
  · rw [hscore]
    have : pairScore o n =
        pairScoreRest o n + ((techSwitchHits o n).length : ℚ) * (35 / 100) := by
      unfold pairScore pairScoreRest techPart
      ring
    rw [this]

/-- C4 counterexample: the newer fragment contains a second
technology-switch occurrence (replaced gamma with delta) whose
from-technology gamma is among the older tokens, yet the emitted
candidate carries exactly one tech_switch signal and a score of 0.75 =
0.30 + one 0.35 + 0.10 — the second occurrence contributes neither a
signal nor 0.35, because String.match without the global flag returns
only the first match of each pattern. -/
theorem compareDecisions_second_switch_occurrence_missed :
    compareDecisions twoSwitchOlder twoSwitchNewer = [twoSwitchCandidate] ∧
    strContains "replaced alpha with beta and replaced gamma with delta"
      "replaced gamma with delta" = true ∧
    detectTechSwitches "replaced gamma with delta" =
      [{ fromT := "gamma", toT := "delta", pattern := "replaced gamma with delta" }] ∧
    "gamma" ∈ tokenize "alpha gamma daily" ∧
    (twoSwitchCandidate.signals.filter isTechSwitchSig).length = 1 ∧
    twoSwitchCandidate.score = 3 / 4 := by
  refine ⟨?_, ?_, ?_, ?_, ?_, ?_⟩ <;> with_unfolding_all decide

/-- Witness for C4 at a concrete emitted candidate. -/
theorem compareItemPair_tech_switch_accounting_witness :
    compareItemPair "alpha daily" "replaced alpha with beta" "decision" "decision" =
      some oneSwitchCandidate ∧
    oneSwitchCandidate.signals.filter isTechSwitchSig =
      (techSwitchHits "alpha daily" "replaced alpha with beta").map Signal.tech_switch :=
  ⟨by with_unfolding_all decide,
   (compareItemPair_tech_switch_accounting "alpha daily" "replaced alpha with beta"
      "decision" "decision" oneSwitchCandidate (by with_unfolding_all decide)).1⟩

/-- C9: resolveConflict with a resolution outside the valid set returns
null and leaves the ledger untouched; with a valid resolution and an id
present in the ledger it updates the first matching conflict in place
to status resolved, records the resolution and the note, and stamps
resolvedAt with the current time. -/
theorem resolveConflict_validation_and_update :
    (∀ (now cid res note : String) (L : List Conflict), res ∉ validResolutions →
      resolveConflict now cid res note L = (none, L)) ∧
    (∀ (now cid res note : String) (L : List Conflict) (i : Nat) (c : Conflict),
      res ∈ validResolutions → cid ≠ "" →
      L.findIdx? (fun c' => c'.id == cid) = some i → L.get? i = some c →
      resolveConflict now cid res note L =
        (some (resolveUpdate now res note c), L.set i (resolveUpdate now res note c)) ∧
      (resolveUpdate now res note c).status = "resolved" ∧
      (resolveUpdate now res note c).resolution = some res ∧
      (resolveUpdate now res note c).resolvedAt = some now) := by
  constructor
  · intro now cid res note L hres
    unfold resolveConflict
    split_ifs
    · rfl
    · rfl
  · intro now cid res note L i c hres hcid hidx hget
    have hresne : res ≠ "" := by
      intro h
      subst h
      revert hres
      decide
    refine ⟨?_, rfl, rfl, rfl⟩
    unfold resolveConflict
    rw [if_neg (by simp [hcid, hresne])]
    rw [if_neg (by simp [hres])]
    unfold updateConflict
    rw [hidx]
    simp only [hget]

/-- Witness for C9: a concrete one-element ledger, both for the
rejected bogus resolution and for a successful keep_newer resolution. -/
theorem resolveConflict_validation_and_update_witness :
    resolveConflict "T9" "c1" "bogus_value" ""
      [heuristicOnlyConflict "c1" "T0" sampleCandidate] =
      (none, [heuristicOnlyConflict "c1" "T0" sampleCandidate]) ∧
    resolveConflict "T9" "c1" "keep_newer" "note"
      [heuristicOnlyConflict "c1" "T0" sampleCandidate] =
      (some (resolveUpdate "T9" "keep_newer" "note"
        (heuristicOnlyConflict "c1" "T0" sampleCandidate)),
       [resolveUpdate "T9" "keep_newer" "note"
        (heuristicOnlyConflict "c1" "T0" sampleCandidate)]) :=
  ⟨resolveConflict_validation_and_update.1 "T9" "c1" "bogus_value" ""
      [heuristicOnlyConflict "c1" "T0" sampleCandidate] (by decide),
   (resolveConflict_validation_and_update.2 "T9" "c1" "keep_newer" "note"
      [heuristicOnlyConflict "c1" "T0" sampleCandidate] 0
      (heuristicOnlyConflict "c1" "T0" sampleCandidate) (by decide) (by decide)
      (by with_unfolding_all rfl) (by with_unfolding_all rfl)).1⟩

theorem LedgerInv.append {L M : List Conflict} (hL : LedgerInv L) (hM : LedgerInv M) :
    LedgerInv (L ++ M) := by
  intro c hc
  rcases List.mem_append.mp hc with h | h
  · exact hL c h
  · exact hM c h

theorem mem_verifyConflicts {j : Judge} {hp : Bool} {cands : List Candidate}
    {maxC : Nat} {ids : Nat → String} {now : String} {conf : Conflict}
    (h : conf ∈ verifyConflicts j hp cands maxC ids now) :
    ∃ id now' c, verifySingleCandidate j id now' c = some conf := by
  simp only [verifyConflicts] at h
  split at h
  · exact absurd h (List.not_mem_nil conf)
  · split at h
    · exact absurd h (List.not_mem_nil conf)
    · rw [List.mem_flatMap] at h
      obtain ⟨batch, -, hb⟩ := h
      rw [List.mem_filterMap] at hb
      obtain ⟨p, -, hp'⟩ := hb
      exact ⟨ids p.1, now, p.2, hp'⟩

theorem mem_heuristicOnlyPass {ids : Nat → String} {now : String}
    {cands : List Candidate} {conf : Conflict}
    (h : conf ∈ heuristicOnlyPass ids now cands) :
    ∃ id c, conf = heuristicOnlyConflict id now c := by
  simp only [heuristicOnlyPass] at h
  rw [List.mem_filterMap] at h
  obtain ⟨p, -, hp'⟩ := h
  split at hp'
  · cases hp'
    exact ⟨ids p.1, p.2, rfl⟩
  · exact absurd hp' (by simp)

theorem verifyConflicts_inv {j : Judge} {hp : Bool} {cands : List Candidate}
    {maxC : Nat} {ids : Nat → String} {now : String} :
    LedgerInv (verifyConflicts j hp cands maxC ids now) := by
  intro conf hconf
  obtain ⟨id, now', c, hsome⟩ := mem_verifyConflicts hconf
  obtain ⟨-, hst, hres, hresol⟩ := verifySingle_some_fields j id now' c conf hsome
  intro _
  exact ⟨hres, hresol⟩

theorem heuristicOnlyPass_inv {ids : Nat → String} {now : String}
    {cands : List Candidate} :
    LedgerInv (heuristicOnlyPass ids now cands) := by
  intro conf hconf
  obtain ⟨id, c, rfl⟩ := mem_heuristicOnlyPass hconf
  intro _
  exact ⟨rfl, rfl⟩

theorem updateConflict_inv {cid : String} {f : Conflict → Conflict}
    {L : List Conflict} (hf : ∀ c, ConflictInv (f c)) (hL : LedgerInv L) :
    LedgerInv (updateConflict cid f L).2 := by
  unfold updateConflict
  split
  · exact hL
  · split
    · exact hL
    next c _ =>
      intro x hx
      rcases List.mem_or_eq_of_mem_set hx with hmem | heq
      · exact hL x hmem
      · rw [heq]
        exact hf c

/-- C8: every conflict created by the AI verification path or the
heuristic-only fallback is open with null resolvedAt and resolution,
and every ledger operation of the module — resolve, dismiss, the full
scan and the single-record check — preserves the invariant that an
open conflict has null resolvedAt and resolution. -/
theorem conflict_open_invariant :
    (∀ (j : Judge) (id now : String) (c : Candidate) (conf : Conflict),
      verifySingleCandidate j id now c = some conf →
        conf.status = "open" ∧ conf.resolvedAt = none ∧ conf.resolution = none) ∧
    (∀ (id now : String) (c : Candidate),
      (heuristicOnlyConflict id now c).status = "open" ∧
      (heuristicOnlyConflict id now c).resolvedAt = none ∧
      (heuristicOnlyConflict id now c).resolution = none) ∧
    (∀ (now cid res note : String) (L : List Conflict), LedgerInv L →
      LedgerInv (resolveConflict now cid res note L).2) ∧
    (∀ (now cid : String) (L : List Conflict), LedgerInv L →
      LedgerInv (dismissConflict now cid L).2) ∧
    (∀ (S : List Summary) (T : List Topic) (j : Judge) (hp : Bool)
      (ids : Nat → String) (now : String) (maxC : Nat) (θ : ℚ) (L : List Conflict),
      LedgerInv L → LedgerInv (runFullScan S T j hp ids now maxC θ L).2) ∧
    (∀ (s : Summary) (ex : List Summary) (useAI hp : Bool) (j : Judge)
      (ids : Nat → String) (now : String) (L : List Conflict),
      LedgerInv L → LedgerInv (checkNewSummary s ex useAI hp j ids now L).2) := by
  refine ⟨?_, ?_, ?_, ?_, ?_, ?_⟩
  · intro j id now c conf h
    obtain ⟨-, hst, hres, hresol⟩ := verifySingle_some_fields j id now c conf h
    exact ⟨hst, hres, hresol⟩
  · intro id now c
    exact ⟨rfl, rfl, rfl⟩
  · intro now cid res note L hL
    unfold resolveConflict
    split_ifs
    all_goals first
      | exact hL
      | · refine updateConflict_inv (fun c => ?_) hL
          intro habs
          have habs' : ("resolved" : String) = "open" := habs
          exact absurd habs' (by decide)
  · intro now cid L hL
    unfold dismissConflict
    split_ifs
    all_goals first
      | exact hL
      | · refine updateConflict_inv (fun c => ?_) hL
          intro habs
          have habs' : ("dismissed" : String) = "open" := habs
          exact absurd habs' (by decide)
  · intro S T j hp ids now maxC θ L hL
    simp only [runFullScan]
    split
    · exact hL
    · split
      · exact hL
      · refine hL.append ?_
        split
        · exact verifyConflicts_inv
        · exact heuristicOnlyPass_inv
  · intro s ex useAI hp j ids now L hL
    simp only [checkNewSummary]
    split
    · exact hL
    · refine hL.append ?_
      split
      · exact verifyConflicts_inv
      · exact heuristicOnlyPass_inv

/-- Witness for C8 at a concrete ledger. -/
theorem conflict_open_invariant_witness :
    LedgerInv (resolveConflict "T8" "c8" "keep_both" "" []).2 :=
  conflict_open_invariant.2.2.1 "T8" "c8" "keep_both" "" []
    (fun c hc => absurd hc (List.not_mem_nil c))

theorem insertGroup_ok {acc : List (String × List Summary)} {t : String} {s : Summary}
    (hacc : GroupsOK acc) (ht : t ≠ "") (hs : s.topicId = some t) :
    GroupsOK (insertGroup acc t s) := by
  induction acc with
  | nil =>
    intro p hp
    rcases List.mem_singleton.mp hp with rfl
    exact ⟨ht, fun x hx => by rcases List.mem_singleton.mp hx with rfl; exact hs⟩
  | cons q rest ih =>
    have hq := hacc q (List.mem_cons_self q rest)
    have hrest : GroupsOK rest := fun p hp => hacc p (List.mem_cons_of_mem q hp)
    unfold insertGroup
    split
    next heq =>
      intro p hp
      rcases List.mem_cons.mp hp with rfl | hp'
      · refine ⟨hq.1, fun x hx => ?_⟩
        rcases List.mem_append.mp hx with hx' | hx'
        · exact hq.2 x hx'
        · rcases List.mem_singleton.mp hx' with rfl
          rw [hs, heq]
      · exact hrest p hp'
    next =>
      intro p hp
      rcases List.mem_cons.mp hp with rfl | hp'
      · exact hq
      · exact ih hrest p hp'

theorem groupByTopic_ok (summaries : List Summary) : GroupsOK (groupByTopic summaries) := by
  unfold groupByTopic
  have main : ∀ (l : List Summary) (acc : List (String × List Summary)),
      GroupsOK acc →
      GroupsOK (l.foldl
        (fun acc s =>
          match s.topicId with
          | some t => if t = "" then acc else insertGroup acc t s
          | none => acc) acc) := by
    intro l
    induction l with
    | nil => intro acc h; exact h
    | cons a t ih =>
      intro acc h
      rw [List.foldl_cons]
      refine ih _ ?_
      rcases hta : a.topicId with _ | tid
      · simpa [hta] using h
      · by_cases hne : tid = ""
        · simpa [hta, hne] using h
        · simpa [hta, hne] using insertGroup_ok h hne hta
  exact main summaries [] (fun p hp => absurd hp (List.not_mem_nil p))

theorem mem_insertLe {α : Type} {le : α → α → Bool} {x a : α} {l : List α} :
    a ∈ insertLe le x l ↔ a = x ∨ a ∈ l := by
  induction l with
  | nil => simp [insertLe]
  | cons y ys ih =>
    unfold insertLe
    split
    · constructor
      · intro h
        rcases List.mem_cons.mp h with rfl | h'
        · exact Or.inl rfl
        · exact Or.inr h'
      · intro h
        rcases h with rfl | h'
        · exact List.mem_cons_self _ _
        · exact List.mem_cons_of_mem _ h'
    · constructor
      · intro h
        rcases List.mem_cons.mp h with rfl | h'
        · exact Or.inr (List.mem_cons_self _ _)
        · rcases ih.mp h' with rfl | h''
          · exact Or.inl rfl
          · exact Or.inr (List.mem_cons_of_mem _ h'')
      · intro h
        rcases h with rfl | h'
        · exact List.mem_cons_of_mem _ (ih.mpr (Or.inl rfl))
        · rcases List.mem_cons.mp h' with rfl | h''
          · exact List.mem_cons_self _ _
          · exact List.mem_cons_of_mem _ (ih.mpr (Or.inr h''))

theorem mem_sortLe {α : Type} {le : α → α → Bool} {a : α} {l : List α} :
    a ∈ sortLe le l ↔ a ∈ l := by
  induction l with
  | nil => simp [sortLe]
  | cons x xs ih =>
    unfold sortLe
    rw [mem_insertLe]
    simp [ih]

theorem mem_dedupByKey {seen : List String} {c : Candidate} {l : List Candidate}
    (h : c ∈ dedupByKey seen l) : c ∈ l := by
  induction l generalizing seen with
  | nil => exact absurd h (List.not_mem_nil c)
  | cons a t ih =>
    unfold dedupByKey at h
    split at h
    · exact List.mem_cons_of_mem a (ih h)
    · rcases List.mem_cons.mp h with rfl | h'
      · exact List.mem_cons_self _ _
      · exact List.mem_cons_of_mem a (ih h')

theorem mem_pairsOf {α : Type} {p : α × α} {l : List α} (h : p ∈ pairsOf l) :
    p.1 ∈ l ∧ p.2 ∈ l := by
  induction l with
  | nil => exact absurd h (List.not_mem_nil p)
  | cons x xs ih =>
    unfold pairsOf at h
    rcases List.mem_append.mp h with h' | h'
    · rw [List.mem_map] at h'
      obtain ⟨y, hy, rfl⟩ := h'
      exact ⟨List.mem_cons_self _ _, List.mem_cons_of_mem _ hy⟩
    · obtain ⟨h1, h2⟩ := ih h'
      exact ⟨List.mem_cons_of_mem _ h1, List.mem_cons_of_mem _ h2⟩

theorem mem_candidatesFor {older newer : Summary} {c : Candidate}
    (h : c ∈ candidatesFor older newer) :
    c.olderSummaryId = older.id ∧ c.newerSummaryId = newer.id ∧
      c.olderTopicId = older.topicId ∧ c.newerTopicId = newer.topicId := by
  unfold candidatesFor at h
  rw [List.mem_filterMap] at h
  obtain ⟨raw, -, hsome⟩ := h
  split at hsome
  · cases hsome
    exact ⟨rfl, rfl, rfl, rfl⟩
  · exact absurd hsome (by simp)

/-- C10: every candidate returned by the full heuristic scan references
two summaries from topic groups, so both sides carry a truthy (non-null,
non-empty) topicId; summaries without one fall into the unassigned
bucket, which neither the intra-topic nor the cross-topic pass reads. -/
theorem findCandidateConflicts_topic_assigned (S : List Summary) (T : List Topic)
    (c : Candidate) (h : c ∈ findCandidateConflicts S T) :
    (∃ t, c.olderTopicId = some t ∧ t ≠ "") ∧
    (∃ t, c.newerTopicId = some t ∧ t ≠ "") := by
  simp only [findCandidateConflicts] at h
  split at h
  · exact absurd h (List.not_mem_nil c)
  · rw [mem_sortLe] at h
    have h' := mem_dedupByKey h
    have groupsOK : ∀ p ∈ (groupByTopic S).map
        (fun g => (g.1, sortLe (fun a b => timeLE a.createdAt b.createdAt) g.2)),
        p.1 ≠ "" ∧ ∀ s ∈ p.2, s.topicId = some p.1 := by
      intro p hp
      rw [List.mem_map] at hp
      obtain ⟨g0, hg0, rfl⟩ := hp
      have := groupByTopic_ok S g0 hg0
      exact ⟨this.1, fun s hs => this.2 s (mem_sortLe.mp hs)⟩
    rcases List.mem_append.mp h' with hintra | hcross
    · rw [List.mem_flatMap] at hintra
      obtain ⟨g, hg, hpair⟩ := hintra
      rw [List.mem_flatMap] at hpair
      obtain ⟨p, hpmem, hcand⟩ := hpair
      have hmem := mem_pairsOf hpmem
      have hgOK := groupsOK g hg
      have h1 := hgOK.2 p.1 hmem.1
      have h2 := hgOK.2 p.2 hmem.2
      obtain ⟨-, -, hot, hnt⟩ := mem_candidatesFor hcand
      exact ⟨⟨g.1, by rw [hot, h1], hgOK.1⟩, ⟨g.1, by rw [hnt, h2], hgOK.1⟩⟩
    · rw [List.mem_flatMap] at hcross
      obtain ⟨gp, hgp, hinner⟩ := hcross
      have hgpmem := mem_pairsOf hgp
      have hAOK := groupsOK gp.1 hgpmem.1
      have hBOK := groupsOK gp.2 hgpmem.2
      split at hinner
      next topicA topicB _ _ =>
        split at hinner
        · rw [List.mem_flatMap] at hinner
          obtain ⟨sA, hsA, hinner2⟩ := hinner
          rw [List.mem_flatMap] at hinner2
          obtain ⟨sB, hsB, hcand⟩ := hinner2
          have hA := hAOK.2 sA hsA
          have hB := hBOK.2 sB hsB
          obtain ⟨-, -, hot, hnt⟩ := mem_candidatesFor hcand
          cases hjsle : jsLe sA.createdAt sB.createdAt
          · simp only [hjsle, Bool.false_eq_true, if_false] at hot hnt
            exact ⟨⟨gp.2.1, by rw [hot, hB], hBOK.1⟩,
                   ⟨gp.1.1, by rw [hnt, hA], hAOK.1⟩⟩
          · simp only [hjsle, if_true] at hot hnt
            exact ⟨⟨gp.1.1, by rw [hot, hA], hAOK.1⟩,
                   ⟨gp.2.1, by rw [hnt, hB], hBOK.1⟩⟩
        · exact absurd hinner (List.not_mem_nil c)
      next => exact absurd hinner (List.not_mem_nil c)

/-- Witness for C10 at the demonstration corpus. -/
theorem findCandidateConflicts_topic_assigned_witness :
    firstCandidate ∈ findCandidateConflicts [corpusOlder, corpusNewer] [] ∧
    ((∃ t, firstCandidate.olderTopicId = some t ∧ t ≠ "") ∧
     (∃ t, firstCandidate.newerTopicId = some t ∧ t ≠ "")) :=
  ⟨by with_unfolding_all decide,
   findCandidateConflicts_topic_assigned [corpusOlder, corpusNewer] [] firstCandidate
     (by with_unfolding_all decide)⟩

/-- C2 counterexample: checkNewSummary orders each pair by parsed
timestamp, so an existing record with a later createdAt takes the newer
role and the newly created record is handed to the matchers as the
older side — the new record is not always the newer one. -/
theorem checkNewSummary_new_record_as_older_counterexample :
    checkNewSummaryCandidates newSummary [laterExisting] = [roleFlippedCandidate] ∧
    roleFlippedCandidate.olderSummaryId = newSummary.id ∧
    roleFlippedCandidate.newerSummaryId = laterExisting.id ∧
    newSummary.id ≠ laterExisting.id := by
  refine ⟨?_, rfl, rfl, by decide⟩
  with_unfolding_all decide

/-- C2 (amended): in the single-record check every produced candidate
pairs the new record with a comparable existing record, and the new
record takes the newer role exactly when the JS comparison
existingTime <= newTime holds; when it fails — the existing record is
strictly later, or either timestamp is NaN — the new record takes the
older role. -/
theorem checkNewSummaryCandidates_roles (s : Summary) (existing : List Summary)
    (c : Candidate) (h : c ∈ checkNewSummaryCandidates s existing) :
    ∃ e ∈ existing, comparableTo s e = true ∧
      ((jsLe e.createdAt s.createdAt = true ∧
        c.olderSummaryId = e.id ∧ c.newerSummaryId = s.id) ∨
       (jsLe e.createdAt s.createdAt = false ∧
        c.olderSummaryId = s.id ∧ c.newerSummaryId = e.id)) := by
  simp only [checkNewSummaryCandidates] at h
  split at h
  · exact absurd h (List.not_mem_nil c)
  · split at h
    · exact absurd h (List.not_mem_nil c)
    · split at h
      · exact absurd h (List.not_mem_nil c)
      · have h' := mem_dedupByKey h
        rw [List.mem_flatMap] at h'
        obtain ⟨e, he, hcand⟩ := h'
        rw [List.mem_filter] at he
        refine ⟨e, he.1, he.2, ?_⟩
        cases hjsle : jsLe e.createdAt s.createdAt
        · simp only [hjsle, Bool.false_eq_true, if_false] at hcand
          obtain ⟨ho, hn, -, -⟩ := mem_candidatesFor hcand
          exact Or.inr ⟨rfl, ho, hn⟩
        · simp only [hjsle, if_true] at hcand
          obtain ⟨ho, hn, -, -⟩ := mem_candidatesFor hcand
          exact Or.inl ⟨rfl, ho, hn⟩

/-- Witness for C2 at a concrete produced candidate. -/
theorem checkNewSummaryCandidates_roles_witness :
    roleKeptCandidate ∈ checkNewSummaryCandidates newSummary [earlierExisting] ∧
    (∃ e ∈ [earlierExisting], comparableTo newSummary e = true ∧
      ((jsLe e.createdAt newSummary.createdAt = true ∧
        roleKeptCandidate.olderSummaryId = e.id ∧
        roleKeptCandidate.newerSummaryId = newSummary.id) ∨
       (jsLe e.createdAt newSummary.createdAt = false ∧
        roleKeptCandidate.olderSummaryId = newSummary.id ∧
        roleKeptCandidate.newerSummaryId = e.id))) :=
  ⟨by with_unfolding_all decide,
   checkNewSummaryCandidates_roles newSummary [earlierExisting] roleKeptCandidate
     (by with_unfolding_all decide)⟩

theorem mem_enumFrom_of_mem {α : Type} {a : α} :
    ∀ {l : List α} (n : Nat), a ∈ l → ∃ i, (i, a) ∈ l.enumFrom n := by
  intro l
  induction l with
  | nil => intro n h; exact absurd h (List.not_mem_nil a)
  | cons x xs ih =>
    intro n h
    rcases List.mem_cons.mp h with rfl | h'
    · exact ⟨n, List.mem_cons_self _ _⟩
    · obtain ⟨i, hi⟩ := ih (n + 1) h'
      exact ⟨i, List.mem_cons_of_mem _ hi⟩

theorem snd_mem_of_mem_enumFrom {α : Type} :
    ∀ {l : List α} {n : Nat} {p : Nat × α}, p ∈ l.enumFrom n → p.2 ∈ l := by
  intro l
  induction l with
  | nil => intro n p h; exact absurd h (List.not_mem_nil p)
  | cons x xs ih =>
    intro n p h
    rcases List.mem_cons.mp h with rfl | h'
    · exact List.mem_cons_self _ _
    · exact List.mem_cons_of_mem _ (ih h')

theorem verifyConflicts_nil_of (j : Judge) (ids : Nat → String) (now : String)
    (maxC : Nat) (cands : List Candidate)
    (h : ∀ c ∈ cands, judgePass j c = false) :
    verifyConflicts j true cands maxC ids now = [] := by
  rw [verifyConflicts_eq]
  rw [List.filterMap_eq_nil_iff]
  intro p hp
  refine verifySingle_none_of_not_pass j (ids p.1) now p.2 (h p.2 ?_)
  exact List.mem_of_mem_take (snd_mem_of_mem_enumFrom hp)

theorem runFullScan_verified_zero_of (S : List Summary) (T : List Topic)
    (j : Judge) (ids : Nat → String) (now : String) (maxC : Nat) (θ : ℚ)
    (L : List Conflict)
    (h : ∀ c ∈ findCandidateConflicts S T, θ ≤ c.heuristicScore →
      candKey c ∉ L.map conflictKey → judgePass j c = false) :
    ((runFullScan S T j true ids now maxC θ L).1).verified = 0 := by
  simp only [runFullScan]
  split
  · rfl
  next hFne =>
    split
    · rfl
    next hNne =>
      have hnil : verifyConflicts j true
          (((findCandidateConflicts S T).filter fun c =>
            decide (θ ≤ c.heuristicScore)).filter fun c =>
              decide (candKey c ∉ L.map conflictKey)) maxC ids now = [] := by
        refine verifyConflicts_nil_of j ids now maxC _ (fun c hc => ?_)
        rw [List.mem_filter] at hc
        obtain ⟨hcF, hkey⟩ := hc
        rw [List.mem_filter] at hcF
        obtain ⟨hcand, hθ⟩ := hcF
        exact h c hcand (of_decide_eq_true hθ) (of_decide_eq_true hkey)
      simp only [if_true]
      rw [hnil]
      rfl

theorem runFullScan_ledger_keys (S : List Summary) (T : List Topic) (j : Judge)
    (ids : Nat → String) (now : String) (maxC : Nat) (θ : ℚ) (L0 : List Conflict)
    (hmax : 0 < maxC)
    (hlen : ((findCandidateConflicts S T).filter fun c =>
      θ ≤ c.heuristicScore).length ≤ maxC) :
    ∀ c ∈ findCandidateConflicts S T, θ ≤ c.heuristicScore →
      candKey c ∉ ((runFullScan S T j true ids now maxC θ L0).2).map conflictKey →
      judgePass j c = false := by
  intro c hc hθ hkey
  by_contra hpass
  rw [Bool.not_eq_false] at hpass
  have hcF : c ∈ (findCandidateConflicts S T).filter fun c =>
      decide (θ ≤ c.heuristicScore) :=
    List.mem_filter.mpr ⟨hc, decide_eq_true hθ⟩
  simp only [runFullScan] at hkey
  split at hkey
  next hFe =>
    rw [List.isEmpty_iff.mp hFe] at hcF
    exact absurd hcF (List.not_mem_nil c)
  next hFne =>
    split at hkey
    next hNe =>
      have hcN : c ∈ ((findCandidateConflicts S T).filter fun c =>
          decide (θ ≤ c.heuristicScore)).filter fun c =>
            decide (candKey c ∉ L0.map conflictKey) :=
        List.mem_filter.mpr ⟨hcF, decide_eq_true hkey⟩
      rw [List.isEmpty_iff.mp hNe] at hcN
      exact absurd hcN (List.not_mem_nil c)
    next hNne =>
      simp only [if_true] at hkey
      rw [List.map_append, List.mem_append] at hkey
      push_neg at hkey
      obtain ⟨hkeyL0, hkeyV⟩ := hkey
      have hcN : c ∈ ((findCandidateConflicts S T).filter fun c =>
          decide (θ ≤ c.heuristicScore)).filter fun c =>
            decide (candKey c ∉ L0.map conflictKey) :=
        List.mem_filter.mpr ⟨hcF, decide_eq_true hkeyL0⟩
      obtain ⟨i, hi⟩ := mem_enumFrom_of_mem 0 hcN
      have hisSome : (verifySingleCandidate j (ids i) now c).isSome = true := by
        rw [verifySingle_isSome_eq, hpass]
      obtain ⟨conf, hconf⟩ := Option.isSome_iff_exists.mp hisSome
      have hNlen : (((findCandidateConflicts S T).filter fun c =>
          decide (θ ≤ c.heuristicScore)).filter fun c =>
            decide (candKey c ∉ L0.map conflictKey)).length ≤ maxC :=
        le_trans (List.length_filter_le _ _) hlen
      have hVeq : verifyConflicts j true
          (((findCandidateConflicts S T).filter fun c =>
            decide (θ ≤ c.heuristicScore)).filter fun c =>
              decide (candKey c ∉ L0.map conflictKey)) maxC ids now =
          ((((findCandidateConflicts S T).filter fun c =>
            decide (θ ≤ c.heuristicScore)).filter fun c =>
              decide (candKey c ∉ L0.map conflictKey)).enumFrom 0).filterMap
            fun p => verifySingleCandidate j (ids p.1) now p.2 := by
        rw [verifyConflicts_eq]
        rw [if_neg (Nat.pos_iff_ne_zero.mp hmax)]
        rw [List.take_of_length_le hNlen]
        rfl
      refine hkeyV ?_
      rw [hVeq]
      rw [List.mem_map]
      refine ⟨conf, ?_, (verifySingle_some_fields j (ids i) now c conf hconf).1⟩
      rw [List.mem_filterMap]
      exact ⟨(i, c), hi, hconf⟩

/-- C1 (amended): running the full scan twice in a row over an
unchanged corpus with the judge available yields verified = 0 on the
second run, provided the filtered candidate count does not exceed the
(positive) verification cap.  Candidates whose key was persisted are
excluded before verification; candidates the deterministic judge
rejected in the first run are re-verified rather than excluded, and are
rejected again.  Without the cap hypothesis the claim fails, because
candidates deferred past the cap in the first run are verified and
persisted on the second. -/
theorem runFullScan_second_run_verified_zero (S : List Summary) (T : List Topic)
    (j : Judge) (ids1 : Nat → String) (now1 : String) (ids2 : Nat → String)
    (now2 : String) (maxC : Nat) (θ : ℚ) (L0 : List Conflict)
    (hmax : 0 < maxC)
    (hlen : ((findCandidateConflicts S T).filter fun c =>
      θ ≤ c.heuristicScore).length ≤ maxC) :
    ((runFullScan S T j true ids2 now2 maxC θ
        (runFullScan S T j true ids1 now1 maxC θ L0).2).1).verified = 0 :=
  runFullScan_verified_zero_of S T j ids2 now2 maxC θ _
    (runFullScan_ledger_keys S T j ids1 now1 maxC θ L0 hmax hlen)

/-- C1 counterexample: on a corpus producing three candidates, with the
judge available and accepting and maxCandidates = 1, the first scan
verifies and persists only the top candidate, so the second scan still
finds unpersisted candidates, verifies the next one and returns
verified = 1, not 0 — not every candidate of the second run has its
dedup key in the ledger. -/
theorem runFullScan_second_run_counterexample :
    ((runFullScan [corpusOlder, corpusNewer] [] acceptingJudge true runIds2 "T2" 1
        (3 / 10)
        (runFullScan [corpusOlder, corpusNewer] [] acceptingJudge true runIds1 "T1" 1
          (3 / 10) []).2).1).verified ≠ 0 := by
  with_unfolding_all decide

/-- Witness for C1 discharging the cap hypothesis at a concrete corpus. -/
theorem runFullScan_second_run_verified_zero_witness :
    ((runFullScan [] [] acceptingJudge true runIds2 "W2" 20 (3 / 10)
        (runFullScan [] [] acceptingJudge true runIds1 "W1" 20 (3 / 10) []).2).1).verified
      = 0 :=
  runFullScan_second_run_verified_zero [] [] acceptingJudge runIds1 "W1" runIds2 "W2"
    20 (3 / 10) [] (by decide) (by with_unfolding_all decide)

end ConflictEngine
